import Mathlib

/-!
A shallow embedding of `audio_analyzer.py` from the audio-analyzer-tool
repository: the `AudioDialogAnalyzer` class and its operations, together with
proofs about the specified behaviour.

Modelling choices: numeric samples, amplitude thresholds and times are
rationals; Python integers are `Int` (sample indices can be negative) or `ℕ`;
numpy 1-D arrays are `List ℚ`; Python slice semantics (negative indices count
from the end, out-of-range bounds clamp) are modelled exactly by `pySliceIdx`;
each distinct `raise ValueError(message)` site of the source is one
constructor of `AnalyzerError`; the external decoding collaborator
(`soundfile.read`) is a parameter producing either a failure or a decoded
sample matrix with a sample rate.
-/

namespace AudioAnalyzerTool

/-- Which party's segment a speech-detection failure refers to: the two
`raise` sites in `find_actual_speech_end` and `find_speech_start` carry
different messages naming the abonent segment and the agent segment. -/
inductive SpeechParty
  | abonent
  | agent
  deriving DecidableEq

/-- One constructor per distinct `raise ValueError(message)` site in
`audio_analyzer.py` (load failure wrap, samplerate mismatch, non-stereo data,
the three range checks of `calculate_reaction_time`, the two no-speech sites,
and the empty-turns check of `analyze_multiple_turns`). -/
inductive AnalyzerError
  | decodeError (cause : String)
  | formatWrongSamplerate (expected got : ℕ)
  | formatNotStereo
  | rangeWindowOutOfBounds
  | rangeStartNotBeforeEnd
  | rangeAbonentEndBeyondAgent
  | noSpeechDetected (party : SpeechParty)
  | emptyInput
  deriving DecidableEq

/-- The five error kinds named by the specification (section 7). -/
inductive ErrorKind
  | decodeError
  | formatError
  | rangeError
  | noSpeechDetected
  | emptyInputError
  deriving DecidableEq

/-- The specification kind of each raise site of the source. -/
def errorKind : AnalyzerError → ErrorKind
  | .decodeError _ => .decodeError
  | .formatWrongSamplerate _ _ => .formatError
  | .formatNotStereo => .formatError
  | .rangeWindowOutOfBounds => .rangeError
  | .rangeStartNotBeforeEnd => .rangeError
  | .rangeAbonentEndBeyondAgent => .rangeError
  | .noSpeechDetected _ => .noSpeechDetected
  | .emptyInput => .emptyInputError

/-- The Python exception type raised at each site: every failure in
`audio_analyzer.py` is raised as `raise ValueError(...)`. -/
def raisedExceptionType : AnalyzerError → String
  | .decodeError _ => "ValueError"
  | .formatWrongSamplerate _ _ => "ValueError"
  | .formatNotStereo => "ValueError"
  | .rangeWindowOutOfBounds => "ValueError"
  | .rangeStartNotBeforeEnd => "ValueError"
  | .rangeAbonentEndBeyondAgent => "ValueError"
  | .noSpeechDetected _ => "ValueError"
  | .emptyInput => "ValueError"

/-- Python `int(q)`: truncation toward zero (for a negative argument this is
the ceiling, written through the floor). -/
def truncToInt (q : ℚ) : Int := if 0 ≤ q then ⌊q⌋ else -⌊-q⌋

/-- Python slice-bound normalisation for a sequence of length `n`: a negative
bound counts from the end (clamped below at 0), a non-negative bound is
clamped above at `n`. -/
def pySliceIdx (n : ℕ) (i : Int) : ℕ :=
  if i < 0 then ((n : Int) + i).toNat else min i.toNat n

/-- Python `xs[a:b]`. -/
def pySlice (xs : List ℚ) (a b : Int) : List ℚ :=
  (xs.drop (pySliceIdx xs.length a)).take (pySliceIdx xs.length b - pySliceIdx xs.length a)

/-- Python `xs[a:]`. -/
def pySliceFrom (xs : List ℚ) (a : Int) : List ℚ :=
  xs.drop (pySliceIdx xs.length a)

/-- `np.where(np.abs(segment) > threshold)[0]`: the indices of the samples
whose absolute value exceeds the threshold, in increasing order. -/
def speechIndices (threshold : ℚ) (segment : List ℚ) : List ℕ :=
  (List.range segment.length).filter (fun i => decide (threshold < |segment.getD i 0|))

/-- `AudioDialogAnalyzer.find_actual_speech_end`: `np.max` of the indices of
samples above the threshold; raises when there are none (the message names
the abonent segment). -/
def find_actual_speech_end (threshold : ℚ) (audio_segment : List ℚ) :
    Except AnalyzerError ℕ :=
  match (speechIndices threshold audio_segment).max? with
  | none => .error (.noSpeechDetected .abonent)
  | some m => .ok m

/-- `AudioDialogAnalyzer.find_speech_start`: `np.min` of the indices of
samples above the threshold; raises when there are none (the message names
the agent segment). -/
def find_speech_start (threshold : ℚ) (audio_segment : List ℚ) :
    Except AnalyzerError ℕ :=
  match (speechIndices threshold audio_segment).min? with
  | none => .error (.noSpeechDetected .agent)
  | some m => .ok m

/-- The `ReactionTimeResult` dataclass. -/
structure ReactionTimeResult where
  reaction_time_ms : ℚ
  is_good_reaction : Bool
  abonent_speech_end_idx : Int
  agent_speech_start_idx : Int
  deriving DecidableEq

/-- `AudioDialogAnalyzer.calculate_reaction_time`, translated line by line:
the two window-bound checks keep only the upper bounds, the window times are
truncated toward zero, slicing follows Python semantics, and the absolute
speech-end index is the raw `start_idx` plus the relative index found in the
slice. -/
def calculate_reaction_time (amplitude_threshold good_reaction_threshold_ms : ℚ)
    (abonent agent : List ℚ) (start_time end_time : ℚ) (samplerate : ℕ) :
    Except AnalyzerError ReactionTimeResult :=
  let start_idx : Int := truncToInt (start_time * samplerate)
  let end_idx : Int := truncToInt (end_time * samplerate)
  if start_idx ≥ (abonent.length : Int) ∨ end_idx > (abonent.length : Int) then
    .error .rangeWindowOutOfBounds
  else if start_idx ≥ end_idx then
    .error .rangeStartNotBeforeEnd
  else
    match find_actual_speech_end amplitude_threshold (pySlice abonent start_idx end_idx) with
    | .error e => .error e
    | .ok end_speech_rel_idx =>
      let abonent_speech_end_idx : Int := start_idx + end_speech_rel_idx
      if abonent_speech_end_idx ≥ (agent.length : Int) then
        .error .rangeAbonentEndBeyondAgent
      else
        match find_speech_start amplitude_threshold (pySliceFrom agent abonent_speech_end_idx) with
        | .error e => .error e
        | .ok agent_speech_start_rel_idx =>
          let agent_speech_start_idx : Int :=
            abonent_speech_end_idx + agent_speech_start_rel_idx
          let reaction_time_ms : ℚ :=
            (((agent_speech_start_idx - abonent_speech_end_idx : Int) : ℚ) / samplerate) * 1000
          .ok { reaction_time_ms := reaction_time_ms
                is_good_reaction := decide (reaction_time_ms ≤ good_reaction_threshold_ms)
                abonent_speech_end_idx := abonent_speech_end_idx
                agent_speech_start_idx := agent_speech_start_idx }

/-- The decoded sample data produced by the external decoding collaborator
(`soundfile.read`): either a 1-D array (`ndim = 1`) or a 2-D frames-times-
channels matrix whose second shape component is `ncols`. -/
inductive DecodedData
  | oneD (samples : List ℚ)
  | twoD (ncols : ℕ) (rows : List (List ℚ))
  deriving DecidableEq

/-- `AudioDialogAnalyzer.load_audio`: wraps a decoder failure, then checks
the sample rate against the expected one, then requires a 2-D matrix with
exactly 2 channels, and finally splits: column 0 is the abonent channel,
column 1 the agent channel. -/
def load_audio (expected_samplerate : ℕ)
    (decodeResult : Except String (DecodedData × ℕ)) :
    Except AnalyzerError (List ℚ × List ℚ × ℕ) :=
  match decodeResult with
  | .error cause => .error (.decodeError cause)
  | .ok (data, samplerate) =>
    if samplerate ≠ expected_samplerate then
      .error (.formatWrongSamplerate expected_samplerate samplerate)
    else
      match data with
      | .oneD _ => .error .formatNotStereo
      | .twoD ncols rows =>
        if ncols ≠ 2 then
          .error .formatNotStereo
        else
          .ok (rows.map (fun r => r.getD 0 0), rows.map (fun r => r.getD 1 0), samplerate)

/-- The per-turn loop of `analyze_multiple_turns` (lines 149-152): apply
`calculate_reaction_time` to each window in order, aborting on the first
failure. -/
def analyzeTurns (amplitude_threshold good_reaction_threshold_ms : ℚ)
    (abonent agent : List ℚ) (samplerate : ℕ) :
    List (ℚ × ℚ) → Except AnalyzerError (List ReactionTimeResult)
  | [] => .ok []
  | (start_time, end_time) :: rest =>
    match calculate_reaction_time amplitude_threshold good_reaction_threshold_ms
        abonent agent start_time end_time samplerate with
    | .error e => .error e
    | .ok r =>
      match analyzeTurns amplitude_threshold good_reaction_threshold_ms
          abonent agent samplerate rest with
      | .error e => .error e
      | .ok rs => .ok (r :: rs)

/-- The `DialogStatistics` dataclass. -/
structure DialogStatistics where
  results : List ReactionTimeResult
  average_reaction_time_ms : ℚ
  good_reactions_count : ℕ
  good_reactions_percentage : ℚ
  min_reaction_time_ms : ℚ
  max_reaction_time_ms : ℚ
  deriving DecidableEq

/-- The statistics block of `analyze_multiple_turns` (lines 154-165).  The
source only evaluates it on a non-empty result list; `min`/`max` of the empty
list are given a default to keep the function total. -/
def dialogStatisticsOf (results : List ReactionTimeResult) : DialogStatistics :=
  let reaction_times := results.map (fun r => r.reaction_time_ms)
  let good_reactions_count := (results.filter (fun r => r.is_good_reaction)).length
  { results := results
    average_reaction_time_ms := reaction_times.sum / (reaction_times.length : ℚ)
    good_reactions_count := good_reactions_count
    good_reactions_percentage := ((good_reactions_count : ℚ) / (results.length : ℚ)) * 100
    min_reaction_time_ms := reaction_times.min?.getD 0
    max_reaction_time_ms := reaction_times.max?.getD 0 }

/-- `AudioDialogAnalyzer.analyze_dialog_turn`: load, then one reaction-time
computation.  The decoding collaborator is passed as a thunk. -/
def analyze_dialog_turn (expected_samplerate : ℕ)
    (amplitude_threshold good_reaction_threshold_ms : ℚ)
    (decoder : Unit → Except String (DecodedData × ℕ))
    (start_time end_time : ℚ) : Except AnalyzerError ReactionTimeResult :=
  match load_audio expected_samplerate (decoder ()) with
  | .error e => .error e
  | .ok (abonent, agent, samplerate) =>
    calculate_reaction_time amplitude_threshold good_reaction_threshold_ms
      abonent agent start_time end_time samplerate

/-- `AudioDialogAnalyzer.analyze_multiple_turns`: check the window list for
emptiness, then load once (invoking the decoding collaborator), then analyze
each window in order and aggregate. -/
def analyze_multiple_turns (expected_samplerate : ℕ)
    (amplitude_threshold good_reaction_threshold_ms : ℚ)
    (decoder : Unit → Except String (DecodedData × ℕ))
    (turns : List (ℚ × ℚ)) : Except AnalyzerError DialogStatistics :=
  if turns.isEmpty then
    .error .emptyInput
  else
    match load_audio expected_samplerate (decoder ()) with
    | .error e => .error e
    | .ok (abonent, agent, samplerate) =>
      match analyzeTurns amplitude_threshold good_reaction_threshold_ms
          abonent agent samplerate turns with
      | .error e => .error e
      | .ok results => .ok (dialogStatisticsOf results)

/-! ### Basic facts about the speech-boundary primitives -/

theorem mem_speechIndices {threshold : ℚ} {segment : List ℚ} {i : ℕ} :
    i ∈ speechIndices threshold segment ↔
      i < segment.length ∧ threshold < |segment.getD i 0| := by
  simp [speechIndices, List.mem_filter, List.mem_range]

theorem speechIndices_eq_nil_iff {threshold : ℚ} {segment : List ℚ} :
    speechIndices threshold segment = [] ↔
      ∀ i, i < segment.length → ¬ threshold < |segment.getD i 0| := by
  rw [List.eq_nil_iff_forall_not_mem]
  constructor
  · intro h i hi hlt
    exact h i (mem_speechIndices.mpr ⟨hi, hlt⟩)
  · intro h i hi
    obtain ⟨hlen, hlt⟩ := mem_speechIndices.mp hi
    exact h i hlen hlt

theorem nat_max?_spec {l : List ℕ} {m : ℕ} (h : l.max? = some m) :
    m ∈ l ∧ ∀ b ∈ l, b ≤ m :=
  (List.max?_eq_some_iff (fun a => le_refl a) (fun a b => max_choice a b)
    (fun _ _ _ => max_le_iff)).mp h

theorem nat_min?_spec {l : List ℕ} {m : ℕ} (h : l.min? = some m) :
    m ∈ l ∧ ∀ b ∈ l, m ≤ b :=
  (List.min?_eq_some_iff (fun a => le_refl a) (fun a b => min_choice a b)
    (fun _ _ _ => le_min_iff)).mp h

theorem find_actual_speech_end_eq_ok {threshold : ℚ} {segment : List ℚ} {m : ℕ} :
    find_actual_speech_end threshold segment = .ok m ↔
      (speechIndices threshold segment).max? = some m := by
  unfold find_actual_speech_end
  cases h : (speechIndices threshold segment).max? <;> simp [h]

theorem find_speech_start_eq_ok {threshold : ℚ} {segment : List ℚ} {m : ℕ} :
    find_speech_start threshold segment = .ok m ↔
      (speechIndices threshold segment).min? = some m := by
  unfold find_speech_start
  cases h : (speechIndices threshold segment).min? <;> simp [h]

theorem find_actual_speech_end_spec {threshold : ℚ} {segment : List ℚ} {m : ℕ}
    (h : find_actual_speech_end threshold segment = .ok m) :
    m < segment.length ∧ threshold < |segment.getD m 0| ∧
      ∀ i, i < segment.length → threshold < |segment.getD i 0| → i ≤ m := by
  obtain ⟨hmem, hub⟩ := nat_max?_spec (find_actual_speech_end_eq_ok.mp h)
  obtain ⟨hlen, hlt⟩ := mem_speechIndices.mp hmem
  exact ⟨hlen, hlt, fun i hi hlt' => hub i (mem_speechIndices.mpr ⟨hi, hlt'⟩)⟩

theorem find_speech_start_spec {threshold : ℚ} {segment : List ℚ} {m : ℕ}
    (h : find_speech_start threshold segment = .ok m) :
    m < segment.length ∧ threshold < |segment.getD m 0| ∧
      ∀ i, i < segment.length → threshold < |segment.getD i 0| → m ≤ i := by
  obtain ⟨hmem, hlb⟩ := nat_min?_spec (find_speech_start_eq_ok.mp h)
  obtain ⟨hlen, hlt⟩ := mem_speechIndices.mp hmem
  exact ⟨hlen, hlt, fun i hi hlt' => hlb i (mem_speechIndices.mpr ⟨hi, hlt'⟩)⟩

theorem find_actual_speech_end_eq_error {threshold : ℚ} {segment : List ℚ} {e : AnalyzerError} :
    find_actual_speech_end threshold segment = .error e ↔
      e = .noSpeechDetected .abonent ∧ speechIndices threshold segment = [] := by
  unfold find_actual_speech_end
  cases h : (speechIndices threshold segment).max? with
  | none =>
    simp only [List.max?_eq_none_iff] at h
    simp [h, eq_comm]
  | some m =>
    simp [h]
    intro _ hnil
    rw [hnil] at h
    simp at h

theorem find_speech_start_eq_error {threshold : ℚ} {segment : List ℚ} {e : AnalyzerError} :
    find_speech_start threshold segment = .error e ↔
      e = .noSpeechDetected .agent ∧ speechIndices threshold segment = [] := by
  unfold find_speech_start
  cases h : (speechIndices threshold segment).min? with
  | none =>
    simp only [List.min?_eq_none_iff] at h
    simp [h, eq_comm]
  | some m =>
    simp [h]
    intro _ hnil
    rw [hnil] at h
    simp at h

/-! ### Inversion of a successful reaction-time computation -/

theorem calculate_reaction_time_ok_elim {amplitude_threshold good_reaction_threshold_ms : ℚ}
    {abonent agent : List ℚ} {start_time end_time : ℚ} {samplerate : ℕ}
    {r : ReactionTimeResult}
    (h : calculate_reaction_time amplitude_threshold good_reaction_threshold_ms
      abonent agent start_time end_time samplerate = .ok r) :
    ∃ rel rel2 : ℕ,
      truncToInt (start_time * samplerate) < (abonent.length : Int) ∧
      truncToInt (end_time * samplerate) ≤ (abonent.length : Int) ∧
      truncToInt (start_time * samplerate) < truncToInt (end_time * samplerate) ∧
      find_actual_speech_end amplitude_threshold
        (pySlice abonent (truncToInt (start_time * samplerate))
          (truncToInt (end_time * samplerate))) = .ok rel ∧
      truncToInt (start_time * samplerate) + (rel : Int) < (agent.length : Int) ∧
      find_speech_start amplitude_threshold
        (pySliceFrom agent (truncToInt (start_time * samplerate) + (rel : Int))) = .ok rel2 ∧
      r = { reaction_time_ms := ((rel2 : ℚ) / (samplerate : ℚ)) * 1000
            is_good_reaction :=
              decide (((rel2 : ℚ) / (samplerate : ℚ)) * 1000 ≤ good_reaction_threshold_ms)
            abonent_speech_end_idx := truncToInt (start_time * samplerate) + (rel : Int)
            agent_speech_start_idx :=
              truncToInt (start_time * samplerate) + (rel : Int) + (rel2 : Int) } := by
  simp only [calculate_reaction_time] at h
  split at h
  · exact absurd h (by simp)
  · split at h
    · exact absurd h (by simp)
    · rename_i hbounds hse
      push_neg at hbounds
      split at h
      · exact absurd h (by simp)
      · rename_i rel hrel
        split at h
        · exact absurd h (by simp)
        · rename_i hk
          split at h
          · exact absurd h (by simp)
          · rename_i rel2 hrel2
            refine ⟨rel, rel2, hbounds.1, hbounds.2, lt_of_not_ge hse, hrel,
              lt_of_not_ge hk, hrel2, ?_⟩
            injection h with h'
            subst h'
            have hsub : truncToInt (start_time * samplerate) + (rel : Int) + (rel2 : Int) -
                (truncToInt (start_time * samplerate) + (rel : Int)) = (rel2 : Int) :=
              add_sub_cancel_left _ _
            simp [hsub]

/-! ### Slice-index arithmetic -/

theorem range_two : List.range 2 = [0, 1] := rfl

theorem range_three : List.range 3 = [0, 1, 2] := rfl

theorem lt_of_rel_lt_pySlice_length {xs : List ℚ} {a b : Int} {rel : ℕ}
    (ha : a < (xs.length : Int)) (hab : a < b) (h : rel < (pySlice xs a b).length) :
    a + (rel : Int) < b := by
  have hlen : (pySlice xs a b).length =
      min (pySliceIdx xs.length b - pySliceIdx xs.length a)
        (xs.length - pySliceIdx xs.length a) := by
    simp [pySlice, List.length_take, List.length_drop]
  rw [hlen] at h
  unfold pySliceIdx at h
  split_ifs at h <;> omega

theorem lt_of_rel_lt_pySliceFrom_length {xs : List ℚ} {a : Int} {rel2 : ℕ}
    (ha : a < (xs.length : Int)) (h : rel2 < (pySliceFrom xs a).length) :
    a + (rel2 : Int) < (xs.length : Int) := by
  have hlen : (pySliceFrom xs a).length = xs.length - pySliceIdx xs.length a := by
    simp [pySliceFrom, List.length_drop]
  rw [hlen] at h
  unfold pySliceIdx at h
  split_ifs at h <;> omega

/-! ### Claim C1 -/

/-- Claim C1 as stated is false: `calculate_reaction_time` can succeed with
`agent_speech_start_idx = abonent_speech_end_idx` and reaction time 0, when
the agent channel already exceeds the amplitude threshold at the sample where
the abonent's speech ends. -/
theorem agent_start_can_equal_abonent_end :
    ¬ (∀ (amplitude_threshold good_reaction_threshold_ms : ℚ) (abonent agent : List ℚ)
        (start_time end_time : ℚ) (samplerate : ℕ) (r : ReactionTimeResult),
        calculate_reaction_time amplitude_threshold good_reaction_threshold_ms
          abonent agent start_time end_time samplerate = .ok r →
        r.abonent_speech_end_idx < r.agent_speech_start_idx ∧ 0 < r.reaction_time_ms) := by
  intro hclaim
  have heval : calculate_reaction_time (1/50) 1200 [1, 0] [1, 1] 0 2 1 =
      .ok { reaction_time_ms := 0, is_good_reaction := true,
            abonent_speech_end_idx := 0, agent_speech_start_idx := 0 } := by
    norm_num [calculate_reaction_time, truncToInt, pySlice, pySliceFrom, pySliceIdx,
      find_actual_speech_end, find_speech_start, speechIndices, range_two, List.filter]
  have hpos := hclaim _ _ _ _ _ _ _ _ heval
  simp at hpos

/-- Claim C1 amended: on success the agent speech start index is greater than
or equal to the abonent speech end index, and the reaction time is
non-negative (zero is possible). -/
theorem reaction_time_nonneg_on_success {amplitude_threshold good_reaction_threshold_ms : ℚ}
    {abonent agent : List ℚ} {start_time end_time : ℚ} {samplerate : ℕ}
    {r : ReactionTimeResult}
    (h : calculate_reaction_time amplitude_threshold good_reaction_threshold_ms
      abonent agent start_time end_time samplerate = .ok r) :
    r.abonent_speech_end_idx ≤ r.agent_speech_start_idx ∧ 0 ≤ r.reaction_time_ms := by
  obtain ⟨rel, rel2, -, -, -, -, -, -, hr⟩ := calculate_reaction_time_ok_elim h
  subst hr
  constructor
  · simp only
    omega
  · simp only
    positivity

theorem reaction_time_nonneg_on_success_witness :
    ((0 : Int) ≤ 1) ∧ ((0 : ℚ) ≤ 1000) := by
  have heval : calculate_reaction_time (1/50) 1200 [1, 0, 0] [0, 1, 0] 0 3 1 =
      .ok { reaction_time_ms := 1000, is_good_reaction := true,
            abonent_speech_end_idx := 0, agent_speech_start_idx := 1 } := by
    norm_num [calculate_reaction_time, truncToInt, pySlice, pySliceFrom, pySliceIdx,
      find_actual_speech_end, find_speech_start, speechIndices, range_three, List.filter]
  exact reaction_time_nonneg_on_success heval

/-! ### Claim C5 -/

/-- Claim C5: on success, `is_good_reaction` holds exactly when the reaction
time is at most the configured threshold, the boundary counting as good. -/
theorem is_good_reaction_iff_le_threshold {amplitude_threshold good_reaction_threshold_ms : ℚ}
    {abonent agent : List ℚ} {start_time end_time : ℚ} {samplerate : ℕ}
    {r : ReactionTimeResult}
    (h : calculate_reaction_time amplitude_threshold good_reaction_threshold_ms
      abonent agent start_time end_time samplerate = .ok r) :
    r.is_good_reaction = true ↔ r.reaction_time_ms ≤ good_reaction_threshold_ms := by
  obtain ⟨rel, rel2, -, -, -, -, -, -, hr⟩ := calculate_reaction_time_ok_elim h
  subst hr
  simp

theorem is_good_reaction_iff_le_threshold_witness :
    (true = true ↔ (1000 : ℚ) ≤ 1000) := by
  have heval : calculate_reaction_time (1/50) 1000 [1, 0, 0] [0, 1, 0] 0 3 1 =
      .ok { reaction_time_ms := 1000, is_good_reaction := true,
            abonent_speech_end_idx := 0, agent_speech_start_idx := 1 } := by
    norm_num [calculate_reaction_time, truncToInt, pySlice, pySliceFrom, pySliceIdx,
      find_actual_speech_end, find_speech_start, speechIndices, range_three, List.filter]
  exact is_good_reaction_iff_le_threshold heval

/-! ### Claim C10 -/

/-- Claim C10: on success, the abonent speech end index lies inside the
requested window and the agent speech start index lies between it and the
agent channel length. -/
theorem success_indices_within_bounds {amplitude_threshold good_reaction_threshold_ms : ℚ}
    {abonent agent : List ℚ} {start_time end_time : ℚ} {samplerate : ℕ}
    {r : ReactionTimeResult}
    (h : calculate_reaction_time amplitude_threshold good_reaction_threshold_ms
      abonent agent start_time end_time samplerate = .ok r) :
    truncToInt (start_time * samplerate) ≤ r.abonent_speech_end_idx ∧
    r.abonent_speech_end_idx < truncToInt (end_time * samplerate) ∧
    r.abonent_speech_end_idx ≤ r.agent_speech_start_idx ∧
    r.agent_speech_start_idx < (agent.length : Int) := by
  obtain ⟨rel, rel2, hs, he, hse, hfe, hk, hfs, hr⟩ := calculate_reaction_time_ok_elim h
  subst hr
  have hrel_lt := (find_actual_speech_end_spec hfe).1
  have h1 := lt_of_rel_lt_pySlice_length hs hse hrel_lt
  have hrel2_lt := (find_speech_start_spec hfs).1
  have h2 := lt_of_rel_lt_pySliceFrom_length hk hrel2_lt
  refine ⟨?_, ?_, ?_, ?_⟩ <;> simp only <;> omega

theorem success_indices_within_bounds_witness :
    truncToInt ((0 : ℚ) * (1 : ℕ)) ≤ 0 ∧ (0 : Int) < truncToInt ((2 : ℚ) * (1 : ℕ)) ∧
    (0 : Int) ≤ 1 ∧ (1 : Int) < 2 := by
  have heval : calculate_reaction_time (1/50) 1200 [1, 0] [0, 1] 0 2 1 =
      .ok { reaction_time_ms := 1000, is_good_reaction := true,
            abonent_speech_end_idx := 0, agent_speech_start_idx := 1 } := by
    norm_num [calculate_reaction_time, truncToInt, pySlice, pySliceFrom, pySliceIdx,
      find_actual_speech_end, find_speech_start, speechIndices, range_two, List.filter]
  exact success_indices_within_bounds heval

/-! ### Claim C3 -/

/-- Claim C3: `find_actual_speech_end` returns the largest index whose sample
exceeds the threshold in absolute value and `find_speech_start` the smallest;
each fails with its `NoSpeechDetected` error exactly when no sample exceeds
the threshold; when both succeed on one segment the end is at least the
start. -/
theorem speech_boundary_extremal_spec (threshold : ℚ) (segment : List ℚ) :
    (∀ m, find_actual_speech_end threshold segment = .ok m →
      m < segment.length ∧ threshold < |segment.getD m 0| ∧
        ∀ i, i < segment.length → threshold < |segment.getD i 0| → i ≤ m) ∧
    (find_actual_speech_end threshold segment = .error (.noSpeechDetected .abonent) ↔
      ∀ i, i < segment.length → ¬ threshold < |segment.getD i 0|) ∧
    (∀ m, find_speech_start threshold segment = .ok m →
      m < segment.length ∧ threshold < |segment.getD m 0| ∧
        ∀ i, i < segment.length → threshold < |segment.getD i 0| → m ≤ i) ∧
    (find_speech_start threshold segment = .error (.noSpeechDetected .agent) ↔
      ∀ i, i < segment.length → ¬ threshold < |segment.getD i 0|) ∧
    (∀ m m', find_actual_speech_end threshold segment = .ok m →
      find_speech_start threshold segment = .ok m' → m' ≤ m) := by
  refine ⟨fun m h => find_actual_speech_end_spec h, ?_, fun m h => find_speech_start_spec h,
    ?_, ?_⟩
  · rw [find_actual_speech_end_eq_error]
    simp [speechIndices_eq_nil_iff]
  · rw [find_speech_start_eq_error]
    simp [speechIndices_eq_nil_iff]
  · intro m m' hend hstart
    obtain ⟨hm, hmlt, -⟩ := find_actual_speech_end_spec hend
    obtain ⟨-, -, hmin⟩ := find_speech_start_spec hstart
    exact hmin m hm hmlt

theorem speech_boundary_extremal_spec_witness :
    (1 < ([(0 : ℚ), 1, 0] : List ℚ).length ∧
      (1 : ℚ)/50 < |([(0 : ℚ), 1, 0] : List ℚ).getD 1 0| ∧
      ∀ i, i < ([(0 : ℚ), 1, 0] : List ℚ).length →
        (1 : ℚ)/50 < |([(0 : ℚ), 1, 0] : List ℚ).getD i 0| → i ≤ 1) ∧
    (1 : ℕ) ≤ 1 := by
  have hend : find_actual_speech_end (1/50) [0, 1, 0] = .ok 1 := by
    norm_num [find_actual_speech_end, speechIndices, range_three, List.filter]
  have hstart : find_speech_start (1/50) [0, 1, 0] = .ok 1 := by
    norm_num [find_speech_start, speechIndices, range_three, List.filter]
  exact ⟨(speech_boundary_extremal_spec (1/50) [0, 1, 0]).1 1 hend,
    (speech_boundary_extremal_spec (1/50) [0, 1, 0]).2.2.2.2 1 1 hend hstart⟩

/-- Forward construction of a successful `calculate_reaction_time` run from
its component facts. -/
theorem calculate_reaction_time_eq_ok {amplitude_threshold : ℚ}
    (good_reaction_threshold_ms : ℚ)
    {abonent agent : List ℚ} {start_time end_time : ℚ} {samplerate : ℕ}
    {s e : Int} {rel rel2 : ℕ}
    (hs : truncToInt (start_time * samplerate) = s)
    (he : truncToInt (end_time * samplerate) = e)
    (h1 : s < (abonent.length : Int)) (h1' : e ≤ (abonent.length : Int)) (h2 : s < e)
    (hfe : find_actual_speech_end amplitude_threshold (pySlice abonent s e) = .ok rel)
    (hk : s + (rel : Int) < (agent.length : Int))
    (hfs : find_speech_start amplitude_threshold (pySliceFrom agent (s + (rel : Int))) = .ok rel2) :
    calculate_reaction_time amplitude_threshold good_reaction_threshold_ms
      abonent agent start_time end_time samplerate =
      .ok { reaction_time_ms := ((rel2 : ℚ) / (samplerate : ℚ)) * 1000
            is_good_reaction :=
              decide (((rel2 : ℚ) / (samplerate : ℚ)) * 1000 ≤ good_reaction_threshold_ms)
            abonent_speech_end_idx := s + (rel : Int)
            agent_speech_start_idx := s + (rel : Int) + (rel2 : Int) } := by
  simp only [calculate_reaction_time, hs, he]
  rw [if_neg (by rw [not_or]; constructor <;> omega), if_neg (by omega), hfe]
  dsimp only
  rw [if_neg (by omega), hfs]
  dsimp only
  have hsub : s + (rel : Int) + (rel2 : Int) - (s + (rel : Int)) = (rel2 : Int) :=
    add_sub_cancel_left _ _
  rw [hsub]
  norm_num

/-! ### Claim C4 -/

/-- The abonent channel of the scenario: amplitude 0.5 exactly in samples
8000 to 31999, silence elsewhere, 64000 samples at 8000 Hz. -/
def scenarioAbonent : List ℚ :=
  List.replicate 8000 0 ++ (List.replicate 24000 (1/2) ++ List.replicate 32000 0)

/-- The agent channel of the scenario: amplitude 0.5 exactly in samples
40000 to 63999, silence before. -/
def scenarioAgent : List ℚ :=
  List.replicate 40000 0 ++ List.replicate 24000 (1/2)

/-- Claim C4: on the 8000 Hz scenario with window (1.0, 4.0) seconds the
computation succeeds with `abonent_speech_end_idx = 31999`,
`agent_speech_start_idx = 40000`, a reaction time of 1000.125 ms (inside
(900, 1100)) and a good reaction. -/
theorem scenario_8000hz_reaction :
    calculate_reaction_time (1/50) 1200 scenarioAbonent scenarioAgent 1 4 8000 =
      .ok { reaction_time_ms := 8001/8, is_good_reaction := true,
            abonent_speech_end_idx := 31999, agent_speech_start_idx := 40000 } ∧
    (900 : ℚ) ≤ 8001/8 ∧ (8001 : ℚ)/8 ≤ 1100 := by
  have habs : |(1 : ℚ)/2| = 1/2 := by
    rw [abs_of_pos]
    norm_num
  have hlenA : scenarioAbonent.length = 64000 := by
    simp only [scenarioAbonent, List.length_append, List.length_replicate]
  have hlenG : scenarioAgent.length = 64000 := by
    simp only [scenarioAgent, List.length_append, List.length_replicate]
  have hs : truncToInt ((1 : ℚ) * ((8000 : ℕ) : ℚ)) = 8000 := by norm_num [truncToInt]
  have he : truncToInt ((4 : ℚ) * ((8000 : ℕ) : ℚ)) = 32000 := by norm_num [truncToInt]
  have hslice : pySlice scenarioAbonent 8000 32000 = List.replicate 24000 (1/2) := by
    rw [pySlice, hlenA]
    have h1 : pySliceIdx 64000 8000 = 8000 := by
      unfold pySliceIdx
      split_ifs <;> omega
    have h2 : pySliceIdx 64000 32000 = 32000 := by
      unfold pySliceIdx
      split_ifs <;> omega
    rw [h1, h2, scenarioAbonent]
    have hd : (List.replicate 8000 (0 : ℚ) ++
        (List.replicate 24000 ((1 : ℚ)/2) ++ List.replicate 32000 0)).drop 8000 =
        List.replicate 24000 ((1 : ℚ)/2) ++ List.replicate 32000 0 := by
      have h := List.drop_left (List.replicate 8000 (0 : ℚ))
        (List.replicate 24000 ((1 : ℚ)/2) ++ List.replicate 32000 0)
      rwa [List.length_replicate] at h
    rw [hd]
    have hsub : (32000 : ℕ) - 8000 = 24000 := by norm_num
    rw [hsub]
    have ht := List.take_left (List.replicate 24000 ((1 : ℚ)/2)) (List.replicate 32000 (0 : ℚ))
    rwa [List.length_replicate] at ht
  have hindices : speechIndices (1/50) (List.replicate 24000 ((1 : ℚ)/2)) =
      List.range 24000 := by
    rw [speechIndices, List.length_replicate]
    apply List.filter_eq_self.mpr
    intro a ha
    have halt : a < 24000 := List.mem_range.mp ha
    simp only [List.getD_eq_getElem?_getD, List.getElem?_replicate, if_pos halt,
      Option.getD_some, decide_eq_true_eq, habs]
    norm_num
  have hfe : find_actual_speech_end (1/50) (pySlice scenarioAbonent 8000 32000) = .ok 23999 := by
    rw [hslice, find_actual_speech_end_eq_ok, hindices]
    refine (List.max?_eq_some_iff (fun a => le_refl a) (fun a b => max_choice a b)
      (fun _ _ _ => max_le_iff)).mpr ⟨?_, ?_⟩
    · simp only [List.mem_range]
      omega
    · intro b hb
      have := List.mem_range.mp hb
      omega
  have hafter : pySliceFrom scenarioAgent 31999 =
      List.replicate 8001 0 ++ List.replicate 24000 (1/2) := by
    rw [pySliceFrom, hlenG]
    have h1 : pySliceIdx 64000 31999 = 31999 := by
      unfold pySliceIdx
      split_ifs <;> omega
    rw [h1, scenarioAgent, List.drop_append_eq_append_drop, List.drop_replicate,
      List.drop_replicate, List.length_replicate]
  have hlen8001 : (List.replicate 8001 (0 : ℚ)).length ≤ 8001 := by
    rw [List.length_replicate]
  have hstartmem : ((List.replicate 8001 (0 : ℚ) ++
      List.replicate 24000 ((1 : ℚ)/2)) : List ℚ).getD 8001 0 = 1/2 := by
    rw [List.getD_append_right _ _ _ _ hlen8001]
    simp only [List.length_replicate, Nat.sub_self, List.getD_eq_getElem?_getD,
      List.getElem?_replicate]
    norm_num
  have hfs : find_speech_start (1/50)
      (pySliceFrom scenarioAgent ((8000 : Int) + (23999 : ℕ))) = .ok 8001 := by
    have harg : ((8000 : Int) + ((23999 : ℕ) : Int)) = 31999 := by norm_num
    rw [harg, hafter, find_speech_start_eq_ok]
    refine (List.min?_eq_some_iff (fun a => le_refl a) (fun a b => min_choice a b)
      (fun _ _ _ => le_min_iff)).mpr ⟨?_, ?_⟩
    · refine mem_speechIndices.mpr ⟨?_, ?_⟩
      · simp only [List.length_append, List.length_replicate]
        omega
      · rw [hstartmem, habs]
        norm_num
    · intro b hb
      obtain ⟨hblen, hbgt⟩ := mem_speechIndices.mp hb
      by_contra hlt
      push_neg at hlt
      have hblt : b < (List.replicate 8001 (0 : ℚ)).length := by
        rw [List.length_replicate]
        omega
      rw [List.getD_append _ _ _ _ hblt] at hbgt
      have hb0 : (List.replicate 8001 (0 : ℚ)).getD b 0 = 0 := by
        simp only [List.getD_eq_getElem?_getD, List.getElem?_replicate, if_pos
          (show b < 8001 by omega)]
        norm_num
      rw [hb0] at hbgt
      norm_num at hbgt
  refine ⟨?_, by norm_num, by norm_num⟩
  have key := calculate_reaction_time_eq_ok 1200
    hs he (by rw [hlenA]; norm_num) (by rw [hlenA]; norm_num) (by norm_num) hfe
    (by rw [hlenG]; norm_num) hfs
  rw [key]
  norm_num

/-! ### Claim C2 -/

/-- Whether a reaction-time computation failed with a range error. -/
def isRangeError : Except AnalyzerError ReactionTimeResult → Bool
  | .error e => decide (errorKind e = .rangeError)
  | .ok _ => false

/-- Claim C2 as stated is false: a window whose converted start index is
negative (hence outside `[0, len(abonent)]`) is not rejected; Python slice
semantics apply and the call can even succeed. -/
theorem negative_window_not_rejected :
    ¬ (∀ (amplitude_threshold good_reaction_threshold_ms : ℚ) (abonent agent : List ℚ)
        (start_time end_time : ℚ) (samplerate : ℕ),
        isRangeError (calculate_reaction_time amplitude_threshold good_reaction_threshold_ms
          abonent agent start_time end_time samplerate) = true ↔
          (truncToInt (start_time * samplerate) < 0 ∨
           truncToInt (start_time * samplerate) > (abonent.length : Int) ∨
           truncToInt (end_time * samplerate) < 0 ∨
           truncToInt (end_time * samplerate) > (abonent.length : Int) ∨
           truncToInt (start_time * samplerate) ≥ truncToInt (end_time * samplerate) ∨
           ∃ rel, find_actual_speech_end amplitude_threshold
               (pySlice abonent (truncToInt (start_time * samplerate))
                 (truncToInt (end_time * samplerate))) = .ok rel ∧
             truncToInt (start_time * samplerate) + (rel : Int) ≥ (agent.length : Int))) := by
  intro hclaim
  have htr : truncToInt ((-2 : ℚ) * ((1 : ℕ) : ℚ)) = -2 := by norm_num [truncToInt]
  have h := (hclaim (1/50) 1200 [1, 1] [1, 1] (-2) 2 1).mpr (by rw [htr]; norm_num)
  have heval : calculate_reaction_time (1/50) 1200 [1, 1] [1, 1] (-2) 2 1 =
      .ok { reaction_time_ms := 0, is_good_reaction := true,
            abonent_speech_end_idx := -1, agent_speech_start_idx := -1 } := by
    norm_num [calculate_reaction_time, truncToInt, pySlice, pySliceFrom, pySliceIdx,
      find_actual_speech_end, find_speech_start, speechIndices, range_two, List.filter]
  rw [heval] at h
  simp [isRangeError] at h

/-- Claim C2 amended: the code checks only the upper bounds.  A
`RangeError`-kind failure occurs exactly when `start_idx ≥ len(abonent)`, or
`end_idx > len(abonent)`, or `start_idx ≥ end_idx`, or speech is detected in
the window and the resulting `abonent_speech_end_idx ≥ len(agent)`; negative
converted indices are not rejected. -/
theorem rangeError_characterization :
    ∀ (amplitude_threshold good_reaction_threshold_ms : ℚ) (abonent agent : List ℚ)
      (start_time end_time : ℚ) (samplerate : ℕ),
      isRangeError (calculate_reaction_time amplitude_threshold good_reaction_threshold_ms
        abonent agent start_time end_time samplerate) = true ↔
        (truncToInt (start_time * samplerate) ≥ (abonent.length : Int) ∨
         truncToInt (end_time * samplerate) > (abonent.length : Int) ∨
         truncToInt (start_time * samplerate) ≥ truncToInt (end_time * samplerate) ∨
         ∃ rel, find_actual_speech_end amplitude_threshold
             (pySlice abonent (truncToInt (start_time * samplerate))
               (truncToInt (end_time * samplerate))) = .ok rel ∧
           truncToInt (start_time * samplerate) + (rel : Int) ≥ (agent.length : Int)) := by
  intro amplitude_threshold good_reaction_threshold_ms abonent agent start_time end_time samplerate
  simp only [calculate_reaction_time]
  split
  · rename_i hcond
    simp only [isRangeError, errorKind, true_iff, decide_eq_true_eq]
    tauto
  · rename_i hcond
    split
    · rename_i hse
      simp only [isRangeError, errorKind, true_iff, decide_eq_true_eq]
      tauto
    · rename_i hse
      split
      · rename_i e heq
        obtain ⟨he1, -⟩ := find_actual_speech_end_eq_error.mp heq
        subst he1
        simp only [isRangeError, errorKind, decide_eq_true_eq, false_iff,
          reduceCtorEq]
        push_neg at hcond hse ⊢
        refine ⟨hcond.1, hcond.2, hse, ?_⟩
        intro rel hrel
        rw [heq] at hrel
        exact absurd hrel (by simp)
      · rename_i rel heq
        split
        · rename_i hk
          simp only [isRangeError, errorKind, decide_eq_true_eq, true_iff]
          exact .inr (.inr (.inr ⟨rel, heq, hk⟩))
        · rename_i hk
          split
          · rename_i e2 heq2
            obtain ⟨he2, -⟩ := find_speech_start_eq_error.mp heq2
            subst he2
            simp only [isRangeError, errorKind, decide_eq_true_eq, false_iff,
              reduceCtorEq]
            push_neg at hcond hse hk ⊢
            refine ⟨hcond.1, hcond.2, hse, ?_⟩
            intro rel' hrel'
            rw [heq] at hrel'
            have : rel' = rel := by
              injection hrel' with h'
              exact h'.symm
            subst this
            exact hk
          · rename_i rel2 heq2
            simp only [isRangeError, Bool.false_eq_true, false_iff]
            push_neg at hcond hse hk ⊢
            refine ⟨hcond.1, hcond.2, hse, ?_⟩
            intro rel' hrel'
            rw [heq] at hrel'
            have : rel' = rel := by
              injection hrel' with h'
              exact h'.symm
            subst this
            exact hk

theorem rangeError_characterization_witness :
    isRangeError (calculate_reaction_time (1/50) 1200 [(1 : ℚ)] [(1 : ℚ)] 5 2 1) = true := by
  apply (rangeError_characterization (1/50) 1200 [1] [1] 5 2 1).mpr
  have h5 : truncToInt ((5 : ℚ) * ((1 : ℕ) : ℚ)) = 5 := by norm_num [truncToInt]
  left
  rw [h5]
  norm_num

/-! ### Claim C7 -/

/-- Claim C7: with an empty window list, `analyze_multiple_turns` fails with
the empty-input error, and the result does not depend on the decoding
collaborator (the decoder thunk is never consulted). -/
theorem empty_turns_fails_before_decoding :
    ∀ (expected_samplerate : ℕ) (amplitude_threshold good_reaction_threshold_ms : ℚ)
      (decoder decoder' : Unit → Except String (DecodedData × ℕ)),
      analyze_multiple_turns expected_samplerate amplitude_threshold
        good_reaction_threshold_ms decoder [] = .error .emptyInput ∧
      analyze_multiple_turns expected_samplerate amplitude_threshold
        good_reaction_threshold_ms decoder [] =
        analyze_multiple_turns expected_samplerate amplitude_threshold
          good_reaction_threshold_ms decoder' [] :=
  fun _ _ _ _ _ => ⟨rfl, rfl⟩

/-! ### Claim C8 -/

/-- Claim C8: `load_audio` rejects a sample-rate mismatch with the
samplerate `FormatError` for every decoded payload (so before any channel
processing), rejects data that is not a 2-channel matrix, and on success
splits column 0 as the abonent channel and column 1 as the agent channel,
two sequences of equal length, returned with the sample rate. -/
theorem load_audio_spec (expected_samplerate : ℕ) :
    (∀ (data : DecodedData) (samplerate : ℕ), samplerate ≠ expected_samplerate →
      load_audio expected_samplerate (.ok (data, samplerate)) =
        .error (.formatWrongSamplerate expected_samplerate samplerate)) ∧
    (∀ samples : List ℚ,
      load_audio expected_samplerate (.ok (.oneD samples, expected_samplerate)) =
        .error .formatNotStereo) ∧
    (∀ (ncols : ℕ) (rows : List (List ℚ)), ncols ≠ 2 →
      load_audio expected_samplerate (.ok (.twoD ncols rows, expected_samplerate)) =
        .error .formatNotStereo) ∧
    (∀ (decodeResult : Except String (DecodedData × ℕ)) (abonent agent : List ℚ)
        (samplerate : ℕ),
      load_audio expected_samplerate decodeResult = .ok (abonent, agent, samplerate) →
      abonent.length = agent.length ∧ samplerate = expected_samplerate ∧
        ∃ rows : List (List ℚ), decodeResult = .ok (.twoD 2 rows, samplerate) ∧
          abonent = rows.map (fun r => r.getD 0 0) ∧
          agent = rows.map (fun r => r.getD 1 0)) := by
  refine ⟨?_, ?_, ?_, ?_⟩
  · intro data samplerate hne
    simp [load_audio, hne]
  · intro samples
    simp [load_audio]
  · intro ncols rows hne
    simp [load_audio, hne]
  · intro decodeResult abonent agent samplerate h
    cases decodeResult with
    | error cause => simp [load_audio] at h
    | ok payload =>
      obtain ⟨data, sr⟩ := payload
      cases data with
      | oneD samples =>
        simp only [load_audio] at h
        split at h
        · exact absurd h (by simp)
        · exact absurd h (by simp)
      | twoD ncols rows =>
        simp only [load_audio] at h
        split at h
        · exact absurd h (by simp)
        · rename_i hsr
          push_neg at hsr
          split at h
          · exact absurd h (by simp)
          · rename_i hncols
            push_neg at hncols
            subst hncols
            injection h with h'
            obtain ⟨ha, h''⟩ := Prod.ext_iff.mp h'
            obtain ⟨hg, hsr2⟩ := Prod.ext_iff.mp h''
            subst hsr2
            subst ha
            subst hg
            exact ⟨by simp, hsr, rows, rfl, rfl, rfl⟩

theorem load_audio_spec_witness :
    load_audio 8000 (.ok (.oneD [0], 16000)) =
      .error (.formatWrongSamplerate 8000 16000) ∧
    (([1, 0] : List ℚ).length = ([2, 3] : List ℚ).length ∧ (8000 : ℕ) = 8000 ∧
      ∃ rows : List (List ℚ),
        (.ok (.twoD 2 [[1, 2], [0, 3]], 8000) : Except String (DecodedData × ℕ)) =
          .ok (.twoD 2 rows, 8000) ∧
        ([1, 0] : List ℚ) = rows.map (fun r => r.getD 0 0) ∧
        ([2, 3] : List ℚ) = rows.map (fun r => r.getD 1 0)) := by
  constructor
  · exact (load_audio_spec 8000).1 (.oneD [0]) 16000 (by norm_num)
  · exact (load_audio_spec 8000).2.2.2 (.ok (.twoD 2 [[1, 2], [0, 3]], 8000))
      [1, 0] [2, 3] 8000 rfl

/-! ### Claim C9 -/

/-- Claim C9 as stated is false: every raise site of the source uses the
same Python exception type, so the exception type alone cannot distinguish
the five error kinds. -/
theorem error_kinds_not_type_distinguishable :
    ¬ (∀ e₁ e₂ : AnalyzerError, raisedExceptionType e₁ = raisedExceptionType e₂ →
        errorKind e₁ = errorKind e₂) := by
  intro h
  have hfe := h .formatNotStereo .emptyInput rfl
  simp [errorKind] at hfe

/-- Claim C9 amended: every failure of the operations is one of the five
kinds, but all of them are raised as the single Python type `ValueError`;
distinguishing the kinds requires inspecting the message, not the type. -/
theorem all_failures_raise_valueerror :
    ∀ err : AnalyzerError, raisedExceptionType err = "ValueError" := by
  intro err
  cases err <;> rfl

/-! ### Claim C6 -/

instance : Std.Antisymm (fun x1 x2 : ℚ => x1 ≤ x2) :=
  ⟨fun h h' => le_antisymm h h'⟩

theorem rat_min?_spec {l : List ℚ} {m : ℚ} (h : l.min? = some m) :
    m ∈ l ∧ ∀ b ∈ l, m ≤ b :=
  (List.min?_eq_some_iff (fun a => le_refl a) (fun a b => min_choice a b)
    (fun _ _ _ => le_min_iff)).mp h

theorem rat_max?_spec {l : List ℚ} {m : ℚ} (h : l.max? = some m) :
    m ∈ l ∧ ∀ b ∈ l, b ≤ m :=
  (List.max?_eq_some_iff (fun a => le_refl a) (fun a b => max_choice a b)
    (fun _ _ _ => max_le_iff)).mp h

theorem analyzeTurns_length {amplitude_threshold good_reaction_threshold_ms : ℚ}
    {abonent agent : List ℚ} {samplerate : ℕ} :
    ∀ {turns : List (ℚ × ℚ)} {results : List ReactionTimeResult},
      analyzeTurns amplitude_threshold good_reaction_threshold_ms abonent agent samplerate
        turns = .ok results → results.length = turns.length := by
  intro turns
  induction turns with
  | nil =>
    intro results h
    simp only [analyzeTurns] at h
    injection h with h'
    simp [← h']
  | cons t rest ih =>
    intro results h
    obtain ⟨start_time, end_time⟩ := t
    simp only [analyzeTurns] at h
    split at h
    · exact absurd h (by simp)
    · split at h
      · exact absurd h (by simp)
      · rename_i rs hrs
        injection h with h'
        subst h'
        simp [ih hrs]

theorem analyze_multiple_turns_ok_elim {expected_samplerate : ℕ}
    {amplitude_threshold good_reaction_threshold_ms : ℚ}
    {decoder : Unit → Except String (DecodedData × ℕ)}
    {turns : List (ℚ × ℚ)} {stats : DialogStatistics}
    (h : analyze_multiple_turns expected_samplerate amplitude_threshold
      good_reaction_threshold_ms decoder turns = .ok stats) :
    ∃ (abonent agent : List ℚ) (samplerate : ℕ) (results : List ReactionTimeResult),
      load_audio expected_samplerate (decoder ()) = .ok (abonent, agent, samplerate) ∧
      analyzeTurns amplitude_threshold good_reaction_threshold_ms abonent agent samplerate
        turns = .ok results ∧
      stats = dialogStatisticsOf results := by
  simp only [analyze_multiple_turns] at h
  split at h
  · exact absurd h (by simp)
  · split at h
    · exact absurd h (by simp)
    · rename_i ab ag sr hload
      split at h
      · exact absurd h (by simp)
      · rename_i results hresults
        injection h with h'
        exact ⟨ab, ag, sr, results, hload, hresults, h'.symm⟩

/-- Claim C6: for a non-empty window list, a successful
`analyze_multiple_turns` returns statistics whose average is the arithmetic
mean of the per-window reaction times, whose min and max are their minimum
and maximum (so min ≤ average ≤ max), whose good-reaction count is the
number of good results (between 0 and the number of windows), and whose
percentage is count over number of results times 100. -/
theorem dialog_statistics_spec {expected_samplerate : ℕ}
    {amplitude_threshold good_reaction_threshold_ms : ℚ}
    {decoder : Unit → Except String (DecodedData × ℕ)}
    {turns : List (ℚ × ℚ)} {stats : DialogStatistics}
    (hne : turns ≠ [])
    (h : analyze_multiple_turns expected_samplerate amplitude_threshold
      good_reaction_threshold_ms decoder turns = .ok stats) :
    stats.results.length = turns.length ∧
    stats.average_reaction_time_ms =
      (stats.results.map (fun r => r.reaction_time_ms)).sum / (stats.results.length : ℚ) ∧
    stats.good_reactions_count = stats.results.countP (fun r => r.is_good_reaction) ∧
    stats.good_reactions_count ≤ stats.results.length ∧
    stats.good_reactions_percentage =
      (stats.good_reactions_count : ℚ) / (stats.results.length : ℚ) * 100 ∧
    stats.min_reaction_time_ms ∈ stats.results.map (fun r => r.reaction_time_ms) ∧
    stats.max_reaction_time_ms ∈ stats.results.map (fun r => r.reaction_time_ms) ∧
    (∀ x ∈ stats.results.map (fun r => r.reaction_time_ms),
      stats.min_reaction_time_ms ≤ x ∧ x ≤ stats.max_reaction_time_ms) ∧
    stats.min_reaction_time_ms ≤ stats.average_reaction_time_ms ∧
    stats.average_reaction_time_ms ≤ stats.max_reaction_time_ms := by
  obtain ⟨ab, ag, sr, results, hload, hturns, hstats⟩ := analyze_multiple_turns_ok_elim h
  subst hstats
  have hlen : results.length = turns.length := analyzeTurns_length hturns
  have hresne : results ≠ [] := by
    intro h0
    apply hne
    subst h0
    exact List.length_eq_zero.mp hlen.symm
  have htimesne : results.map (fun r => r.reaction_time_ms) ≠ [] := by
    simpa using hresne
  obtain ⟨mn, hmn⟩ : ∃ mn, (results.map (fun r => r.reaction_time_ms)).min? = some mn := by
    cases hm : (results.map (fun r => r.reaction_time_ms)).min? with
    | none => exact absurd (List.min?_eq_none_iff.mp hm) htimesne
    | some v => exact ⟨v, rfl⟩
  obtain ⟨mx, hmx⟩ : ∃ mx, (results.map (fun r => r.reaction_time_ms)).max? = some mx := by
    cases hm : (results.map (fun r => r.reaction_time_ms)).max? with
    | none => exact absurd (List.max?_eq_none_iff.mp hm) htimesne
    | some v => exact ⟨v, rfl⟩
  obtain ⟨hmnmem, hmnle⟩ := rat_min?_spec hmn
  obtain ⟨hmxmem, hmxle⟩ := rat_max?_spec hmx
  have hlenpos : 0 < (results.map (fun r => r.reaction_time_ms)).length :=
    List.length_pos.mpr htimesne
  have hlenposQ : (0 : ℚ) < ((results.map (fun r => r.reaction_time_ms)).length : ℚ) := by
    exact_mod_cast hlenpos
  have havg_lb : mn ≤ (results.map (fun r => r.reaction_time_ms)).sum /
      ((results.map (fun r => r.reaction_time_ms)).length : ℚ) := by
    rw [le_div_iff₀ hlenposQ]
    have hsum := List.card_nsmul_le_sum (results.map (fun r => r.reaction_time_ms)) mn hmnle
    rwa [nsmul_eq_mul, mul_comm] at hsum
  have havg_ub : (results.map (fun r => r.reaction_time_ms)).sum /
      ((results.map (fun r => r.reaction_time_ms)).length : ℚ) ≤ mx := by
    rw [div_le_iff₀ hlenposQ]
    have hsum := List.sum_le_card_nsmul (results.map (fun r => r.reaction_time_ms)) mx hmxle
    rwa [nsmul_eq_mul, mul_comm] at hsum
  refine ⟨?_, ?_, ?_, ?_, ?_, ?_, ?_, ?_, ?_, ?_⟩
  · simpa [dialogStatisticsOf] using hlen
  · simp [dialogStatisticsOf]
  · simp [dialogStatisticsOf, List.countP_eq_length_filter]
  · simpa [dialogStatisticsOf] using List.length_filter_le _ results
  · simp [dialogStatisticsOf]
  · simpa [dialogStatisticsOf, hmn] using hmnmem
  · simpa [dialogStatisticsOf, hmx] using hmxmem
  · intro x hx
    have hx' : x ∈ results.map (fun r => r.reaction_time_ms) := by
      simpa [dialogStatisticsOf] using hx
    constructor
    · simpa [dialogStatisticsOf, hmn] using hmnle x hx'
    · simpa [dialogStatisticsOf, hmx] using hmxle x hx'
  · simpa [dialogStatisticsOf, hmn] using havg_lb
  · simpa [dialogStatisticsOf, hmx] using havg_ub

theorem dialog_statistics_spec_witness : (2000 : ℚ) ≤ 2000 := by
  have heval : analyze_multiple_turns 1 (1/50) 1200
      (fun _ => .ok (.twoD 2 [[1, 0], [0, 0], [0, 1]], 1)) [(0, 3)] =
      .ok { results := [{ reaction_time_ms := 2000, is_good_reaction := false,
                          abonent_speech_end_idx := 0, agent_speech_start_idx := 2 }],
            average_reaction_time_ms := 2000, good_reactions_count := 0,
            good_reactions_percentage := 0, min_reaction_time_ms := 2000,
            max_reaction_time_ms := 2000 } := by
    norm_num [analyze_multiple_turns, load_audio, analyzeTurns, dialogStatisticsOf,
      calculate_reaction_time, truncToInt, pySlice, pySliceFrom, pySliceIdx,
      find_actual_speech_end, find_speech_start, speechIndices, range_three,
      List.filter, List.min?, List.max?, List.foldl, decide_eq_false_iff_not]
  exact (dialog_statistics_spec (by simp) heval).2.2.2.2.2.2.2.2.1

end AudioAnalyzerTool
